import Mathlib

/-!
Verification development for the `rig` terminal-UI toolkit: a shallow
embedding of its message-driven state machines (the git-branch tool, the
home screen, the app shell, the standalone adapter) and of the pure
helpers (`splitUpstream`, version comparison, the remote-rename command
sequence), with theorems about the behaviour of `Update`.

Machine integers (Go `int`) are modelled as `Int`.  A Bubble Tea command
(`tea.Cmd`) is modelled as the list of primitive commands it batches:
`tea.Batch` filters out nil commands and returns nil when none remain, so
batching is list concatenation and the nil command is `[]`.  Terminal
styling (lipgloss) only wraps text in color escape sequences, so a style's
`Render` is modelled as the identity on the text content.
-/

namespace Rig

/-- Branch record from `git.go`: `{Name, Upstream, IsCurrent, HasRemote}`. -/
structure Branch where
  name : String
  upstream : String
  isCurrent : Bool
  hasRemote : Bool
deriving DecidableEq, Inhabited

/-- The `viewState` enum of the git-branch tool (part_005). -/
inductive ViewState where
  | loading
  | browse
  | edit
  | create
  | confirmRemote
  | processing
  | result
deriving DecidableEq

/-- The closed set of messages the embedded machines consume (`tea.Msg`).
`key k` is a `tea.KeyMsg` whose `String()` is `k`; `tick` stands for the
spinner/stopwatch tick messages that reach the fall-through routing; the
remaining variants are the typed messages of the repository. -/
inductive Msg where
  | key (k : String)
  | windowSize (w h : Int)
  | branchesLoaded (branches : List Branch) (err : Option String)
  | renameResult (localOk remoteOk : Bool) (err : Option String)
  | deleteResult (err : Option String)
  | createResult (err : Option String)
  | checkoutResult (err : Option String)
  | tick
  | back
  | toolSelected (id : String)
  | updateAvailable (tag : String)
  | updateFinished (err : Option String)
deriving DecidableEq

/-- Primitive commands: each is a deferred unit of work producing one
message.  `emit m` is a closure that simply returns the message `m`
(`func() tea.Msg { return m }`); `quit` is `tea.Quit`. -/
inductive CmdP where
  | fetchBranches
  | gitCheckout (name : String)
  | gitRenameLocal (oldName newName : String)
  | gitRenameAll (oldName upstream newName : String)
  | gitDelete (name : String)
  | gitCreate (name : String)
  | emit (msg : Msg)
  | spinnerTick
  | stopwatchReset
  | stopwatchStart
  | stopwatchTick
  | quit
  | checkUpdate (version : String)
  | runUpdate (tag : String)
deriving DecidableEq

/-- A `tea.Cmd` as the list of primitive commands it batches; `[]` is the
nil command (`tea.Batch` drops nil entries and returns nil for an empty
batch, so batching is concatenation). -/
abbrev Cmd := List CmdP

/-- The bubbles `textinput.Model`, reduced to the fields the tool reads:
the current text and focus.  Key handling of the widget itself (typing)
appends printable single-character keys up to the CharLimit of 200 and
handles backspace; other keys are ignored. -/
structure TextInput where
  value : String
  focused : Bool
deriving DecidableEq

def TextInput.setValue (ti : TextInput) (s : String) : TextInput :=
  { ti with value := s }

def TextInput.focus (ti : TextInput) : TextInput :=
  { ti with focused := true }

def TextInput.blur (ti : TextInput) : TextInput :=
  { ti with focused := false }

/-- Model of `textinput.Model.Update` on a key: printable single-char keys
append (CharLimit 200), backspace deletes the last char, others ignored. -/
def TextInput.update (ti : TextInput) (k : String) : TextInput :=
  if k = "backspace" then { ti with value := ⟨ti.value.data.dropLast⟩ }
  else if k.data.length = 1 ∧ ti.value.data.length < 200 then
    { ti with value := ti.value ++ k }
  else ti

/-- Byte-wise lexicographic order on strings, as Go's `<`/`>` on strings
(identical to code-point order for the ASCII data compared here),
structurally recursive on the character lists. -/
def charListLt : List Char → List Char → Bool
  | [], [] => false
  | [], _ :: _ => true
  | _ :: _, [] => false
  | a :: as, b :: bs =>
    if a < b then true else if b < a then false else charListLt as bs

/-- Go's `strings.Cut` at a single-character separator: split around the
first occurrence, or `none` when the separator does not appear. -/
def cutChar (c : Char) : List Char → Option (List Char × List Char)
  | [] => none
  | x :: xs =>
    if x = c then some ([], xs)
    else (cutChar c xs).map (fun p => (x :: p.1, p.2))

/-- Go's `strings.Split` at a single-character separator. -/
def splitChar (c : Char) : List Char → List (List Char)
  | [] => [[]]
  | x :: xs =>
    if x = c then [] :: splitChar c xs
    else
      match splitChar c xs with
      | [] => [[x]]
      | y :: ys => (x :: y) :: ys

/-- Go's `strings.Join` at a single-character separator. -/
def joinChar (c : Char) : List (List Char) → List Char
  | [] => []
  | [x] => x
  | x :: xs => x ++ c :: joinChar c xs

/-- Go's `strings.TrimSpace`: drop whitespace from both ends. -/
def trimStr (s : String) : String :=
  ⟨((s.data.dropWhile Char.isWhitespace).reverse.dropWhile
      Char.isWhitespace).reverse⟩

/-- Lipgloss styling only wraps the text in terminal escape codes; the
text content of a styled render is the string itself. -/
def styleRender (s : String) : String := s

/-- `ensureCursorVisible` (part_005 and home.go): adjust the viewport
`YOffset` so the cursor row is visible. -/
def ensureCursorVisible (yOffset height cursor : Int) : Int :=
  if cursor < yOffset then cursor
  else if cursor ≥ yOffset + height then cursor - height + 1
  else yOffset

/-- `splitUpstream` (part_005): split at the first `/`, as `strings.Cut`;
without a delimiter both components are the whole string. -/
def splitUpstream (upstream : String) : String × String :=
  match cutChar '/' upstream.data with
  | none => (upstream, upstream)
  | some p => (⟨p.1⟩, ⟨p.2⟩)

namespace GitBranch

/-- The git-branch tool model (part_005).  The spinner and stopwatch
widgets are reduced to their advancing counters; the viewport to its
scroll offset and size. -/
structure Model where
  state : ViewState
  branches : List Branch
  cursor : Int
  input : TextInput
  editing : Branch
  didRemote : Bool
  result : String
  errSplash : String
  confirmIdx : Int
  spinnerFrame : Nat
  stopwatchTicks : Nat
  processingMsg : String
  vpYOffset : Int
  vpWidth : Int
  vpHeight : Int
  width : Int
  height : Int
  deleteStaged : Bool
  deleteStagedIdx : Int
deriving DecidableEq

/-- `New()` (part_005). -/
def new : Model :=
  { state := .loading
    branches := []
    cursor := 0
    input := { value := "", focused := false }
    editing := default
    didRemote := false
    result := ""
    errSplash := ""
    confirmIdx := 0
    spinnerFrame := 0
    stopwatchTicks := 0
    processingMsg := ""
    vpYOffset := 0
    vpWidth := 80
    vpHeight := 20
    width := 0
    height := 0
    deleteStaged := false
    deleteStagedIdx := 0 }

/-- `Init`: `tea.Batch(fetchBranches, m.spinner.Tick, m.stopwatch.Start())`. -/
def initCmd : Cmd := [.fetchBranches, .spinnerTick, .stopwatchStart]

/-- `m.branches[i]` — Go indexing; total here, claims only use it in range. -/
def branchAt (bs : List Branch) (i : Int) : Branch :=
  bs.getD i.toNat default

/-- `m.branchExists(name)` (part_005). -/
def branchExists (m : Model) (name : String) : Bool :=
  m.branches.any (fun b => b.name == name)

/-- `startAsync` (part_005): enter a waiting state and batch the git
command with the spinner tick and stopwatch reset/start. -/
def startAsync (m : Model) (state : ViewState) (label : String) (cmd : Cmd) :
    Model × Cmd :=
  ({ m with state := state, processingMsg := label },
   cmd ++ [.spinnerTick, .stopwatchReset, .stopwatchStart])

/-- `showError` (part_005): stay in Browse but set the splash text. -/
def showError (m : Model) (errText : String) : Model :=
  { m with state := .browse, errSplash := errText }

/-- Text of the partial-success result for a rename whose local step
succeeded but whose remote step failed (part_005, renameResultMsg case). -/
def partialRenameResult (m : Model) (errText : String) : String :=
  let remote := (splitUpstream m.editing.upstream).1
  styleRender "✓" ++ " Renamed " ++ styleRender m.editing.name ++ " → " ++
    styleRender m.input.value ++ "\n" ++ styleRender "✗" ++ " Remote " ++
    styleRender remote ++ " update failed: " ++ styleRender errText

/-- Text of the full-success rename result (part_005). -/
def fullRenameResult (m : Model) (remoteOk : Bool) : String :=
  let first := styleRender "✓" ++ " Renamed " ++ styleRender m.editing.name ++
    " → " ++ styleRender m.input.value
  if m.didRemote && remoteOk then
    let remote := (splitUpstream m.editing.upstream).1
    first ++ "\n" ++ (styleRender "✓" ++ " Updated remote " ++
      styleRender (remote ++ "/" ++ m.input.value))
  else first

/-- `m.handleKey(msg)` (part_005), on the key's `String()` value. -/
def handleKey (m : Model) (k : String) : Model × Cmd :=
  match m.state with
  | .browse =>
    let m := if k ≠ "d" then { m with deleteStaged := false } else m
    match k with
    | "q" | "esc" => (m, [.emit .back])
    | "up" | "k" =>
      if m.cursor > 0 then
        let c := m.cursor - 1
        ({ m with cursor := c,
                  vpYOffset := ensureCursorVisible m.vpYOffset m.vpHeight c }, [])
      else (m, [])
    | "down" | "j" =>
      if m.cursor < (m.branches.length : Int) - 1 then
        let c := m.cursor + 1
        ({ m with cursor := c,
                  vpYOffset := ensureCursorVisible m.vpYOffset m.vpHeight c }, [])
      else (m, [])
    | "enter" =>
      if (m.branches.length : Int) > 0 then
        let b := branchAt m.branches m.cursor
        if b.isCurrent then (m, [])
        else startAsync { m with editing := b } .processing "Switching branch..."
          [.gitCheckout b.name]
      else (m, [])
    | "e" =>
      if (m.branches.length : Int) > 0 then
        let b := branchAt m.branches m.cursor
        ({ m with editing := b,
                  input := ((m.input.setValue b.name).focus),
                  state := .edit }, [])
      else (m, [])
    | "c" =>
      ({ m with input := ((m.input.setValue "").focus), state := .create }, [])
    | "d" =>
      if m.branches.length = 0 then (m, [])
      else
        let b := branchAt m.branches m.cursor
        if b.isCurrent then (m, [])
        else if m.deleteStaged ∧ m.deleteStagedIdx = m.cursor then
          startAsync { m with editing := b, deleteStaged := false } .processing
            "Deleting branch..." [.gitDelete b.name]
        else ({ m with deleteStaged := true, deleteStagedIdx := m.cursor }, [])
    | "r" => startAsync m .loading "Loading branches..." [.fetchBranches]
    | _ => (m, [])
  | .edit =>
    match k with
    | "esc" => ({ m with state := .browse, input := m.input.blur }, [])
    | "enter" =>
      let newName := trimStr m.input.value
      if newName = "" ∨ newName = m.editing.name then
        ({ m with state := .browse, input := m.input.blur }, [])
      else if m.editing.hasRemote then
        ({ m with state := .confirmRemote, confirmIdx := 0 }, [])
      else
        startAsync m .processing "Renaming branch..."
          [.gitRenameLocal m.editing.name newName]
    | _ => ({ m with input := m.input.update k }, [])
  | .create =>
    match k with
    | "esc" => ({ m with state := .browse, input := m.input.blur }, [])
    | "enter" =>
      let newName := trimStr m.input.value
      if newName = "" ∨ branchExists m newName then (m, [])
      else
        startAsync m .processing "Creating branch..." [.gitCreate newName]
    | _ => ({ m with input := m.input.update k }, [])
  | .confirmRemote =>
    match k with
    | "esc" => ({ m with state := .browse }, [])
    | "left" | "h" | "shift+tab" => ({ m with confirmIdx := 0 }, [])
    | "right" | "l" | "tab" => ({ m with confirmIdx := 1 }, [])
    | "y" =>
      let newName := trimStr m.input.value
      startAsync { m with didRemote := true } .processing "Renaming branch..."
        [.gitRenameAll m.editing.name m.editing.upstream newName]
    | "n" =>
      let newName := trimStr m.input.value
      startAsync { m with didRemote := false } .processing "Renaming branch..."
        [.gitRenameLocal m.editing.name newName]
    | "enter" | " " =>
      let newName := trimStr m.input.value
      if m.confirmIdx = 0 then
        startAsync { m with didRemote := true } .processing "Renaming branch..."
          [.gitRenameAll m.editing.name m.editing.upstream newName]
      else
        startAsync { m with didRemote := false } .processing "Renaming branch..."
          [.gitRenameLocal m.editing.name newName]
    | _ => (m, [])
  | .result =>
    match k with
    | "q" | "esc" => (m, [.emit .back])
    | _ =>
      startAsync { m with cursor := 0 } .loading "Loading branches..."
        [.fetchBranches]
  | .loading => (m, [])
  | .processing => (m, [])

/-- The bubbles spinner's `Update`: advance a frame on its tick message and
re-issue the tick; ignore everything else. -/
def spinnerUpdate (frame : Nat) (msg : Msg) : Nat × Cmd :=
  match msg with
  | .tick => (frame + 1, [.spinnerTick])
  | _ => (frame, [])

/-- The bubbles stopwatch's `Update`: advance on its tick, ignore others. -/
def stopwatchUpdate (ticks : Nat) (msg : Msg) : Nat × Cmd :=
  match msg with
  | .tick => (ticks + 1, [.stopwatchTick])
  | _ => (ticks, [])

/-- The `switch msg := msg.(type)` body of `Model.Update` (part_005): what
runs for every message that is not swallowed by the splash interception,
including the fall-through spinner/stopwatch routing for async states. -/
def updateCore (m : Model) (msg : Msg) : Model × Cmd :=
  match msg with
  | .windowSize w h =>
    ({ m with width := w, height := h, vpWidth := w - 6, vpHeight := h - 8 }, [])
  | .branchesLoaded bs err =>
    match err with
    | some e => (showError m e, [])
    | none =>
      let m := { m with state := .browse, branches := bs }
      if m.cursor ≥ (bs.length : Int) ∧ (bs.length : Int) > 0 then
        ({ m with cursor := (bs.length : Int) - 1 }, [])
      else (m, [])
  | .renameResult localOk remoteOk err =>
    match err with
    | some e =>
      if localOk then
        ({ m with state := .result, result := partialRenameResult m e }, [])
      else (showError m e, [])
    | none =>
      ({ m with state := .result, result := fullRenameResult m remoteOk }, [])
  | .deleteResult err =>
    match err with
    | some e => (showError m e, [])
    | none =>
      ({ m with state := .result,
                result := styleRender "✓" ++ " Deleted " ++
                  styleRender m.editing.name }, [])
  | .createResult err =>
    match err with
    | some e => (showError m e, [])
    | none =>
      ({ m with state := .result,
                result := styleRender "✓" ++ " Created " ++
                  styleRender m.input.value }, [])
  | .checkoutResult err =>
    match err with
    | some e => (showError m e, [])
    | none => startAsync m .loading "Loading branches..." [.fetchBranches]
  | .key k => handleKey m k
  | _ =>
    if m.state = .loading ∨ m.state = .processing then
      let s := spinnerUpdate m.spinnerFrame msg
      let t := stopwatchUpdate m.stopwatchTicks msg
      ({ m with spinnerFrame := s.1, stopwatchTicks := t.1 }, s.2 ++ t.2)
    else (m, [])

/-- Whether a message is a `tea.KeyMsg`. -/
def isKey : Msg → Bool
  | .key _ => true
  | _ => false

/-- `Model.Update` (part_005): a non-empty error splash intercepts any key
press, clearing itself; everything else goes to the message switch. -/
def update (m : Model) (msg : Msg) : Model × Cmd :=
  if m.errSplash ≠ "" ∧ isKey msg = true then ({ m with errSplash := "" }, [])
  else updateCore m msg

/-- `GitEnv` models the outcomes of the git subprocess calls that
`git.go`'s mutation helpers make: each field maps the call's arguments to
`none` (exit 0) or `some stderr` (non-zero exit with that stderr text). -/
structure GitEnv where
  renameLocalResult : String → String → Option String
  pushResult : String → String → Option String
  deleteRemoteResult : String → String → Option String

/-- A git mutation invoked against the remote or local repository, for
tracing which subprocess calls a helper performs and in which order. -/
inductive GitOp where
  | renameLocal (oldName newName : String)
  | push (remote branch : String)
  | deleteRemote (remote branch : String)
deriving DecidableEq

/-- `renameBranch` (git.go): `git branch -m old new`; a failure's error is
the trimmed stderr prefixed with the operation label. -/
def renameBranch (env : GitEnv) (oldName newName : String) : Option String :=
  match env.renameLocalResult oldName newName with
  | some stderr => some ("rename branch: " ++ trimStr stderr)
  | none => none

/-- `renameRemoteBranch` (git.go): push the new branch first (`git push
--set-upstream remote new`); only if that succeeds, delete the old remote
ref (`git push remote --delete old`).  Returns the error (if any) and the
ordered trace of subprocess calls actually performed. -/
def renameRemoteBranch (env : GitEnv) (remoteName oldBranch newBranch : String) :
    Option String × List GitOp :=
  match env.pushResult remoteName newBranch with
  | some stderr =>
    (some ("push new branch: " ++ trimStr stderr), [.push remoteName newBranch])
  | none =>
    match env.deleteRemoteResult remoteName oldBranch with
    | some stderr =>
      (some ("delete old remote branch: " ++ trimStr stderr),
       [.push remoteName newBranch, .deleteRemote remoteName oldBranch])
    | none =>
      (none, [.push remoteName newBranch, .deleteRemote remoteName oldBranch])

/-- Execution of the closure built by `cmdRenameAll` (part_005): local
rename, then — only on success — the remote two-step; the produced message
carries `localOk`/`remoteOk` and the error. -/
def runRenameAll (env : GitEnv) (oldName upstream newName : String) : Msg :=
  match renameBranch env oldName newName with
  | some e => .renameResult false false (some e)
  | none =>
    let p := splitUpstream upstream
    let r := renameRemoteBranch env p.1 p.2 newName
    .renameResult true r.1.isNone r.1

end GitBranch

namespace Home

/-- The home screen model (home.go), without the help widget (pure
rendering); the `u`-binding enabled flag stands for `keys.Update`'s
enabled state. -/
structure Model where
  cursor : Int
  version : String
  updateTag : String
  updating : Bool
  updated : Bool
  updateErr : String
  keysUpdateEnabled : Bool
  vpYOffset : Int
  vpWidth : Int
  vpHeight : Int
  width : Int
  height : Int
deriving DecidableEq

/-- `New(version)` (home.go). -/
def new (version : String) : Model :=
  { cursor := 0
    version := version
    updateTag := ""
    updating := false
    updated := false
    updateErr := ""
    keysUpdateEnabled := false
    vpYOffset := 0
    vpWidth := 80
    vpHeight := 20
    width := 0
    height := 0 }

/-- `Init` (home.go): development builds skip the update check. -/
def initCmd (m : Model) : Cmd :=
  if m.version = "dev" then [] else [.checkUpdate m.version]

end Home

/-- The screens the app shell can own: the home screen or a tool instance
(the git-branch tool is the embedded representative tool). -/
inductive Screen where
  | home (h : Home.Model)
  | gitbranch (g : GitBranch.Model)
deriving DecidableEq

/-- `registry.Tool` (part_010): id, display name, description, and the
factory's fresh instance (`New` is pure, so the instance it builds is a
fixed value). -/
structure Tool where
  id : String
  name : String
  description : String
  make : Screen
deriving DecidableEq

/-- `registry.Get` (part_010): first tool with the id, or none. -/
def registryGet (tools : List Tool) (id : String) : Option Tool :=
  tools.find? (fun t => t.id == id)

namespace Home

/-- `home.Model.Update` (home.go), parameterized by `registry.All()`. -/
def update (tools : List Tool) (m : Model) (msg : Msg) : Model × Cmd :=
  match msg with
  | .windowSize w h =>
    ({ m with width := w, height := h, vpWidth := w - 6, vpHeight := h - 10 }, [])
  | .updateAvailable tag =>
    ({ m with updateTag := tag, keysUpdateEnabled := true }, [])
  | .updateFinished err =>
    match err with
    | some e => ({ m with updating := false, updateErr := e }, [])
    | none => ({ m with updating := false, updated := true }, [])
  | .key k =>
    if k = "u" ∧ m.updateTag ≠ "" ∧ m.updating = false ∧ m.updated = false then
      ({ m with updating := true, updateErr := "", keysUpdateEnabled := false },
       [.runUpdate m.updateTag])
    else
      match k with
      | "q" | "esc" => (m, [.quit])
      | "up" | "k" =>
        if m.cursor > 0 then
          let c := m.cursor - 1
          ({ m with cursor := c,
                    vpYOffset := ensureCursorVisible m.vpYOffset m.vpHeight c }, [])
        else (m, [])
      | "down" | "j" =>
        if m.cursor < (tools.length : Int) - 1 then
          let c := m.cursor + 1
          ({ m with cursor := c,
                    vpYOffset := ensureCursorVisible m.vpYOffset m.vpHeight c }, [])
        else (m, [])
      | "enter" | " " =>
        if m.cursor < (tools.length : Int) then
          (m, [.emit (.toolSelected ((tools.getD m.cursor.toNat
            ⟨"", "", "", .home (new "")⟩).id))])
        else (m, [])
      | _ => (m, [])
  | _ => (m, [])

end Home

/-- Delegate a message to whichever screen is active and re-wrap the
replacement state (`m.current.Update(msg)` in app). -/
def screenUpdate (tools : List Tool) : Screen → Msg → Screen × Cmd
  | .home h, msg =>
    let r := Home.update tools h msg
    (.home r.1, r.2)
  | .gitbranch g, msg =>
    let r := GitBranch.update g msg
    (.gitbranch r.1, r.2)

/-- A screen's `Init` command. -/
def screenInit : Screen → Cmd
  | .home h => Home.initCmd h
  | .gitbranch _ => GitBranch.initCmd

namespace App

/-- The app shell model (part_013): the active screen, the injected
version, and the last seen window size (replayed to new screens). -/
structure Model where
  current : Screen
  version : String
  winW : Int
  winH : Int
deriving DecidableEq

/-- `app.New(version)`. -/
def new (version : String) : Model :=
  { current := .home (Home.new version), version := version, winW := 0, winH := 0 }

/-- `app.Model.Update` (part_013): capture window size; global ctrl+c is
quit; BackMsg rebuilds the home screen; ToolSelectedMsg with a registered
id constructs the tool; everything else delegates to the active screen. -/
def update (tools : List Tool) (m : Model) (msg : Msg) : Model × Cmd :=
  let m :=
    match msg with
    | .windowSize w h => { m with winW := w, winH := h }
    | _ => m
  if msg = .key "ctrl+c" then (m, [.quit])
  else
    match msg with
    | .back =>
      let h := Home.new m.version
      ({ m with current := .home h },
       Home.initCmd h ++ [.emit (.windowSize m.winW m.winH)])
    | .toolSelected id =>
      match registryGet tools id with
      | some t =>
        ({ m with current := t.make },
         screenInit t.make ++ [.emit (.windowSize m.winW m.winH)])
      | none =>
        let r := screenUpdate tools m.current msg
        ({ m with current := r.1 }, r.2)
    | _ =>
      let r := screenUpdate tools m.current msg
      ({ m with current := r.1 }, r.2)

end App

namespace Standalone

/-- The standalone adapter (messages.go): wraps a tool model for direct
CLI invocation; its update function is the wrapped model's `Update`. -/
structure Model (α : Type) where
  inner : α
deriving DecidableEq

/-- `standalone.Update` (messages.go): ctrl+c and BackMsg become quit;
every other message passes to the wrapped model, which is re-wrapped. -/
def update {α : Type} (upd : α → Msg → α × Cmd) (s : Model α) (msg : Msg) :
    Model α × Cmd :=
  if msg = .key "ctrl+c" then (s, [.quit])
  else
    match msg with
    | .back => (s, [.quit])
    | _ =>
      let r := upd s.inner msg
      ({ inner := r.1 }, r.2)

end Standalone

namespace Updater

/-- Left-pad a version segment to 4 digits (`fmt.Sprintf("%04s", p)` pads
with leading zeros to width 4, leaving longer segments unchanged). -/
def padSegment (p : List Char) : List Char :=
  if p.length < 4 then List.replicate (4 - p.length) '0' ++ p
  else p

/-- `normalizeVersion` (updater.go): strip a leading `v`, pad each
dot-separated segment to 4 digits for lexicographic comparison. -/
def normalizeVersion (v : String) : String :=
  let w := match v.data with
    | 'v' :: rest => rest
    | other => other
  ⟨joinChar '.' ((splitChar '.' w).map padSegment)⟩

/-- `IsNewer` (updater.go): false for development builds, otherwise a
plain string comparison of the normalized versions
(`normalizeVersion(latest) > normalizeVersion(current)`). -/
def IsNewer (current latest : String) : Bool :=
  if current = "dev" then false
  else charListLt (normalizeVersion current).data (normalizeVersion latest).data

end Updater

/-- The cursor invariant the git-branch tool maintains: non-negative, and
strictly below the branch count whenever the list is non-empty. -/
def GitBranch.cursorInv (m : GitBranch.Model) : Prop :=
  0 ≤ m.cursor ∧
    ((m.branches.length : Int) > 0 → m.cursor < (m.branches.length : Int))

/-- The home screen's cursor invariant over the registered tool list:
non-negative, below the count when non-empty, and zero when empty. -/
def homeCursorInv (tools : List Tool) (m : Home.Model) : Prop :=
  0 ≤ m.cursor ∧
    ((tools.length : Int) > 0 → m.cursor < (tools.length : Int)) ∧
    (tools.length = 0 → m.cursor = 0)

/-- Example branches mirroring the repository's own test fixtures. -/
def bMain : Branch :=
  { name := "main", upstream := "origin/main", isCurrent := true, hasRemote := true }

def bFeat : Branch :=
  { name := "feature/foo", upstream := "origin/feature/foo",
    isCurrent := false, hasRemote := true }

def bLocal : Branch :=
  { name := "local-only", upstream := "", isCurrent := false, hasRemote := false }

/-- A browsing model over the three example branches, cursor on the
non-current `feature/foo`. -/
def mBrowse : GitBranch.Model :=
  { GitBranch.new with
      state := .browse
      branches := [bMain, bFeat, bLocal]
      cursor := 1 }

def mTop : GitBranch.Model := { mBrowse with cursor := 0 }

def mBot : GitBranch.Model := { mBrowse with cursor := 2 }

/-- A model whose error splash is showing. -/
def mSplash : GitBranch.Model := { mBrowse with errSplash := "boom" }

/-- The state reached from a fresh tool by loading three branches, moving
the cursor down twice, then receiving a reload whose list is empty. -/
def c4run : GitBranch.Model :=
  let m0 := GitBranch.new
  let m1 := (GitBranch.update m0 (.branchesLoaded [bMain, bFeat, bLocal] none)).1
  let m2 := (GitBranch.update m1 (.key "j")).1
  let m3 := (GitBranch.update m2 (.key "j")).1
  (GitBranch.update m3 (.branchesLoaded [] none)).1

/-- An Editing-state model whose entered name is whitespace only. -/
def c6EditEmpty : GitBranch.Model :=
  { mBrowse with
      state := .edit
      editing := bLocal
      input := { value := "   ", focused := true } }

/-- A Creating-state model whose entered name is whitespace only. -/
def c6Create : GitBranch.Model :=
  { mBrowse with
      state := .create
      input := { value := "   ", focused := true } }

/-- An Editing-state model renaming `local-only` to a padded new name. -/
def c6EditRen : GitBranch.Model :=
  { mBrowse with
      state := .edit
      editing := bLocal
      input := { value := "  new-local  ", focused := true } }

/-- An update function for a wrapped tool that counts the messages it has
received, to observe whether the adapter passed a message through. -/
def countingUpdate : Nat → Msg → Nat × Cmd := fun n _ => (n + 1, [])

/-- A git environment in which every push to a remote fails. -/
def envPushFails : GitBranch.GitEnv :=
  { renameLocalResult := fun _ _ => none
    pushResult := fun _ _ => some "remote rejected"
    deleteRemoteResult := fun _ _ => none }

/-- A registry holding only the git-branch tool. -/
def toolsEx : List Tool :=
  [{ id := "git-branch", name := "git-branch",
     description := "Rename git branches (local and remote)",
     make := .gitbranch GitBranch.new }]

def homeEx : Home.Model := Home.new "dev"

def homeBot : Home.Model := Home.new "dev"

/-- A partial-rename scenario: the Processing model that issued the
remote rename of `feature/foo` to `feature/bar`. -/
def mPartial : GitBranch.Model :=
  { mBrowse with
      state := .processing
      editing := bFeat
      didRemote := true
      input := { value := "feature/bar", focused := false } }

/-- Every key press in Browse with no splash goes to the key handler. -/
theorem update_key_of_no_splash (m : GitBranch.Model) (hsplash : m.errSplash = "") :
    ∀ k, GitBranch.update m (.key k) = GitBranch.handleKey m k := by
  intro k
  simp [GitBranch.update, hsplash, GitBranch.updateCore]

/-- The key handler preserves the cursor bounds invariant. -/
theorem cursorInv_handleKey (m : GitBranch.Model) (k : String)
    (h : GitBranch.cursorInv m) :
    GitBranch.cursorInv (GitBranch.handleKey m k).1 := by
  obtain ⟨h1, h2⟩ := h
  unfold GitBranch.handleKey
  repeat' split
  all_goals
    simp_all [GitBranch.cursorInv, GitBranch.startAsync, -List.length_eq_zero]
  all_goals (try omega)
  all_goals (repeat' split)
  all_goals simp_all [-List.length_eq_zero]
  all_goals (try omega)

/-- The full Update of the git-branch tool preserves the cursor bounds. -/
theorem cursorInv_update (m : GitBranch.Model) (msg : Msg)
    (h : GitBranch.cursorInv m) :
    GitBranch.cursorInv (GitBranch.update m msg).1 := by
  unfold GitBranch.update
  split
  · exact h
  · obtain ⟨h1, h2⟩ := h
    cases msg with
    | key k =>
      have hk : GitBranch.updateCore m (.key k) = GitBranch.handleKey m k := by
        simp [GitBranch.updateCore]
      rw [hk]
      exact cursorInv_handleKey _ _ ⟨h1, h2⟩
    | _ =>
      simp only [GitBranch.updateCore]
      repeat' split
      all_goals
        simp_all [GitBranch.cursorInv, GitBranch.startAsync, GitBranch.showError,
          GitBranch.spinnerUpdate, GitBranch.stopwatchUpdate, -List.length_eq_zero]
      all_goals (try omega)
      all_goals (repeat' split)
      all_goals (try simp_all [-List.length_eq_zero])
      all_goals (try omega)

/-- The home screen's Update preserves its cursor invariant, including
the cursor-zero-when-empty clause, since its list never shrinks. -/
theorem homeCursorInv_update (tools : List Tool) (m : Home.Model) (msg : Msg)
    (h : homeCursorInv tools m) :
    homeCursorInv tools (Home.update tools m msg).1 := by
  obtain ⟨h1, h2, h3⟩ := h
  unfold Home.update
  repeat' split
  all_goals simp_all [homeCursorInv, -List.length_eq_zero]
  all_goals (try omega)
  all_goals (repeat' split)
  all_goals (try simp_all [-List.length_eq_zero])
  all_goals (try omega)

/-- C1: in `renameRemoteBranch` the new remote ref is always pushed
before the old one is deleted, and when the push fails the delete is
never attempted; when the local rename succeeded but the remote update
failed, the resulting `renameResultMsg` carries `localOk` and an error,
and `Update` on that message enters ShowingResult with the explicit
partial-success text — it does not set the error splash. -/
theorem claim_C1_remote_rename_order :
    ∀ (env : GitBranch.GitEnv) (remote oldB newB : String),
    ((GitBranch.renameRemoteBranch env remote oldB newB).2 =
       [.push remote newB] ∨
     (GitBranch.renameRemoteBranch env remote oldB newB).2 =
       [.push remote newB, .deleteRemote remote oldB]) ∧
    ((env.pushResult remote newB).isSome = true →
      GitBranch.GitOp.deleteRemote remote oldB ∉
        (GitBranch.renameRemoteBranch env remote oldB newB).2) ∧
    (∀ (m : GitBranch.Model) (rOk : Bool) (e : String),
      GitBranch.update m (.renameResult true rOk (some e)) =
        ({ m with state := .result, result := GitBranch.partialRenameResult m e },
         [])) ∧
    (∀ (oldName upstream newName e : String),
      env.renameLocalResult oldName newName = none →
      env.pushResult (splitUpstream upstream).1 newName = some e →
      GitBranch.runRenameAll env oldName upstream newName =
        .renameResult true false (some ("push new branch: " ++ trimStr e))) := by
  intro env remote oldB newB
  refine ⟨?_, ?_, ?_, ?_⟩
  · cases hp : env.pushResult remote newB with
    | none =>
      cases hd : env.deleteRemoteResult remote oldB <;>
        simp [GitBranch.renameRemoteBranch, hp, hd]
    | some s => simp [GitBranch.renameRemoteBranch, hp]
  · intro hp
    cases hp2 : env.pushResult remote newB with
    | none => simp [hp2] at hp
    | some s => simp [GitBranch.renameRemoteBranch, hp2]
  · intro m rOk e
    simp [GitBranch.update, GitBranch.isKey, GitBranch.updateCore]
  · intro oldName upstream newName e h1 h2
    simp [GitBranch.runRenameAll, GitBranch.renameBranch, h1,
      GitBranch.renameRemoteBranch, h2]

/-- C1 witness: with an environment whose pushes fail, the trace after a
failed push is exactly the push attempt, the old remote ref is never
deleted, and the partial-failure message drives the model into
ShowingResult with the partial-success text. -/
theorem claim_C1_witness :
    GitBranch.GitOp.deleteRemote "origin" "feature/foo" ∉
      (GitBranch.renameRemoteBranch envPushFails "origin" "feature/foo"
        "feature/bar").2 ∧
    GitBranch.update mPartial (.renameResult true false (some "remote rejected")) =
      ({ mPartial with
          state := .result
          result := GitBranch.partialRenameResult mPartial "remote rejected" },
       []) ∧
    GitBranch.runRenameAll envPushFails "feature/foo" "origin/feature/foo"
        "feature/bar" =
      .renameResult true false
        (some ("push new branch: " ++ trimStr "remote rejected")) :=
  ⟨(claim_C1_remote_rename_order envPushFails "origin" "feature/foo"
      "feature/bar").2.1 (by decide),
   (claim_C1_remote_rename_order envPushFails "origin" "feature/foo"
      "feature/bar").2.2.1 mPartial false "remote rejected",
   (claim_C1_remote_rename_order envPushFails "origin" "feature/foo"
      "feature/bar").2.2.2 "feature/foo" "origin/feature/foo" "feature/bar"
      "remote rejected" rfl rfl⟩

/-- C2: in Browse, the first press of `d` on a non-current item stages it
at the cursor with no command; a second press with the cursor still on
the staged index transitions to Processing and issues the delete; a press
with the cursor elsewhere re-stages the new index without deleting; any
key other than `d` clears the staging; and `d` on the current branch is
ignored, so a current item is never staged and never deleted. -/
theorem claim_C2_delete_staging : ∀ (m : GitBranch.Model),
    m.errSplash = "" → m.state = .browse →
    (((GitBranch.branchAt m.branches m.cursor).isCurrent = false →
      m.branches.length ≠ 0 →
      ((¬(m.deleteStaged = true ∧ m.deleteStagedIdx = m.cursor) →
        GitBranch.update m (.key "d") =
          ({ m with deleteStaged := true, deleteStagedIdx := m.cursor }, [])) ∧
       (m.deleteStaged = true → m.deleteStagedIdx = m.cursor →
        GitBranch.update m (.key "d") =
          ({ m with
              editing := GitBranch.branchAt m.branches m.cursor,
              deleteStaged := false,
              state := .processing,
              processingMsg := "Deleting branch..." },
           [.gitDelete (GitBranch.branchAt m.branches m.cursor).name,
            .spinnerTick, .stopwatchReset, .stopwatchStart])))) ∧
    ((GitBranch.branchAt m.branches m.cursor).isCurrent = true →
      GitBranch.update m (.key "d") = (m, [])) ∧
    (∀ k, k ≠ "d" → (GitBranch.update m (.key k)).1.deleteStaged = false)) := by
  intro m hsplash hstate
  have hu := update_key_of_no_splash m hsplash
  refine ⟨?_, ?_, ?_⟩
  · intro hcur h0
    constructor
    · intro hns
      rw [hu]
      unfold GitBranch.handleKey
      rw [hstate]
      simp [h0, hcur]
      rw [if_neg hns, hstate]
    · intro hds hidx
      rw [hu]
      unfold GitBranch.handleKey
      rw [hstate]
      simp [h0, hcur, hds, hidx, GitBranch.startAsync]
  · intro hcur
    rw [hu]
    unfold GitBranch.handleKey
    rw [hstate]
    by_cases h0 : m.branches.length = 0 <;> simp [h0, hcur]
  · intro k hk
    rw [hu]
    unfold GitBranch.handleKey
    rw [hstate]
    simp only [hk, ne_eq, not_false_iff, if_true]
    split <;>
      first
      | rfl
      | (exact absurd rfl hk)
      | (split <;>
          first
          | rfl
          | (exact absurd rfl hk)
          | (split <;> first | rfl | (exact absurd rfl hk)))

/-- C2 witness: on the example browsing model, a first `d` stages the
cursor's branch without a command, and a different key clears staging. -/
theorem claim_C2_witness :
    GitBranch.update mBrowse (.key "d") =
      ({ mBrowse with deleteStaged := true, deleteStagedIdx := mBrowse.cursor },
       []) ∧
    (GitBranch.update mBrowse (.key "x")).1.deleteStaged = false := by
  have h := claim_C2_delete_staging mBrowse (by decide) (by decide)
  exact ⟨(h.1 (by decide) (by decide)).1 (by decide), h.2.2 "x" (by decide)⟩

/-- C3: whenever the error-splash text is non-empty, the next key message
of any kind only clears the splash — the model is otherwise untouched, no
command is issued, and the state-specific key handler never runs; exactly
one key is absorbed, because the key after the absorbed one reaches the
key handler as usual. -/
theorem claim_C3_error_splash_interception :
    ∀ (m : GitBranch.Model) (k k2 : String), m.errSplash ≠ "" →
    (GitBranch.update m (.key k) = ({ m with errSplash := "" }, []) ∧
     (GitBranch.update m (.key k)).1.errSplash = "" ∧
     GitBranch.update (GitBranch.update m (.key k)).1 (.key k2) =
       GitBranch.handleKey (GitBranch.update m (.key k)).1 k2) := by
  intro m k k2 h
  have h1 : GitBranch.update m (.key k) = ({ m with errSplash := "" }, []) := by
    simp [GitBranch.update, GitBranch.isKey, h]
  refine ⟨h1, by simp [h1], ?_⟩
  rw [h1]
  simp [GitBranch.update, GitBranch.updateCore]

/-- C3 witness: a splash-showing model absorbs the first key press into a
splash clear, and the press after that reaches the key handler. -/
theorem claim_C3_witness :
    GitBranch.update mSplash (.key "q") = ({ mSplash with errSplash := "" }, []) ∧
    GitBranch.update (GitBranch.update mSplash (.key "q")).1 (.key "r") =
      GitBranch.handleKey (GitBranch.update mSplash (.key "q")).1 "r" := by
  have h := claim_C3_error_splash_interception mSplash "q" "r" (by decide)
  exact ⟨h.1, h.2.2⟩

/-- C4 counterexample: the claim says the cursor equals 0 whenever the
list is empty, including across reloads.  But after loading 3 branches,
moving the cursor to index 2 and receiving a reload whose branch list is
empty, the git-branch tool keeps cursor 2 with an empty list: the clamp
in the `branchesLoadedMsg` case only fires when the new list is
non-empty. -/
theorem claim_C4_counterexample :
    c4run.branches.length = 0 ∧ c4run.cursor = 2 := by decide

/-- C4 (amended): the git-branch tool's Update keeps the cursor within
bounds whenever the list is non-empty (`0 ≤ cursor`, and `cursor < N`
when `N > 0`), across every message including reloads; when a reload
empties the list the cursor keeps its previous value instead of resetting
to 0.  Cursor-up at 0 and cursor-down at N-1 are no-ops in Browse.  The
home screen, whose list is fixed, satisfies the full original invariant
(cursor 0 when its list is empty) and the same no-wraparound no-ops. -/
theorem claim_C4_cursor_bounds :
    (∀ (m : GitBranch.Model) (msg : Msg), GitBranch.cursorInv m →
      GitBranch.cursorInv (GitBranch.update m msg).1) ∧
    (∀ (m : GitBranch.Model), m.errSplash = "" → m.state = .browse →
      m.cursor = 0 → (GitBranch.update m (.key "up")).1.cursor = 0) ∧
    (∀ (m : GitBranch.Model), m.errSplash = "" → m.state = .browse →
      m.cursor = (m.branches.length : Int) - 1 →
      (GitBranch.update m (.key "down")).1.cursor = m.cursor) ∧
    (∀ (tools : List Tool) (m : Home.Model) (msg : Msg),
      homeCursorInv tools m → homeCursorInv tools (Home.update tools m msg).1) ∧
    (∀ (tools : List Tool) (m : Home.Model), m.cursor = 0 →
      (Home.update tools m (.key "up")).1.cursor = 0) ∧
    (∀ (tools : List Tool) (m : Home.Model),
      m.cursor = (tools.length : Int) - 1 →
      (Home.update tools m (.key "down")).1.cursor = m.cursor) := by
  refine ⟨cursorInv_update, ?_, ?_, homeCursorInv_update, ?_, ?_⟩
  · intro m hsplash hstate hc
    rw [update_key_of_no_splash m hsplash]
    unfold GitBranch.handleKey
    rw [hstate]
    simp [hc]
  · intro m hsplash hstate hc
    rw [update_key_of_no_splash m hsplash]
    unfold GitBranch.handleKey
    rw [hstate]
    simp [hc]
  · intro tools m hc
    unfold Home.update
    simp [hc]
  · intro tools m hc
    unfold Home.update
    simp [hc]

/-- C4 witness: the invariant survives a cursor-down on the example
model; up at 0 and down at the last index leave the cursors of both the
git-branch tool and the home screen unchanged. -/
theorem claim_C4_witness :
    GitBranch.cursorInv (GitBranch.update mBrowse (.key "j")).1 ∧
    (GitBranch.update mTop (.key "up")).1.cursor = 0 ∧
    (GitBranch.update mBot (.key "down")).1.cursor = mBot.cursor ∧
    homeCursorInv toolsEx (Home.update toolsEx homeEx (.key "j")).1 ∧
    (Home.update toolsEx homeEx (.key "up")).1.cursor = 0 ∧
    (Home.update toolsEx homeBot (.key "down")).1.cursor = homeBot.cursor :=
  ⟨claim_C4_cursor_bounds.1 mBrowse (.key "j") ⟨by decide, by decide⟩,
   claim_C4_cursor_bounds.2.1 mTop (by decide) (by decide) (by decide),
   claim_C4_cursor_bounds.2.2.1 mBot (by decide) (by decide) (by decide),
   claim_C4_cursor_bounds.2.2.2.1 toolsEx homeEx (.key "j")
     ⟨by decide, by decide, by decide⟩,
   claim_C4_cursor_bounds.2.2.2.2.1 toolsEx homeEx (by decide),
   claim_C4_cursor_bounds.2.2.2.2.2 toolsEx homeBot (by decide)⟩

/-- C5: in Browse with the cursor on a non-current branch, the select key
enters Processing and issues the async checkout (batched with the
spinner/stopwatch commands); a successful checkout result re-enters
Loading and issues the branch-list fetch rather than going straight back
to Browse; and select on the current branch issues no command and stays
in Browse (only the delete staging flag is cleared, as for every
non-delete key). -/
theorem claim_C5_checkout_flow : ∀ (m : GitBranch.Model),
    m.errSplash = "" → m.state = .browse → 0 < m.branches.length →
    (((GitBranch.branchAt m.branches m.cursor).isCurrent = false →
      GitBranch.update m (.key "enter") =
        ({ m with
            deleteStaged := false,
            editing := GitBranch.branchAt m.branches m.cursor,
            state := .processing,
            processingMsg := "Switching branch..." },
         [.gitCheckout (GitBranch.branchAt m.branches m.cursor).name,
          .spinnerTick, .stopwatchReset, .stopwatchStart])) ∧
    ((GitBranch.branchAt m.branches m.cursor).isCurrent = true →
      GitBranch.update m (.key "enter") = ({ m with deleteStaged := false }, [])) ∧
    (∀ m2 : GitBranch.Model, GitBranch.update m2 (.checkoutResult none) =
      ({ m2 with state := .loading, processingMsg := "Loading branches..." },
       [.fetchBranches, .spinnerTick, .stopwatchReset, .stopwatchStart]))) := by
  intro m hsplash hstate h0
  have hu := update_key_of_no_splash m hsplash
  have h0i : ((m.branches.length : Int) > 0) := by exact_mod_cast h0
  refine ⟨?_, ?_, ?_⟩
  · intro hcur
    rw [hu]
    unfold GitBranch.handleKey
    rw [hstate]
    simp [h0i, hcur, GitBranch.startAsync, hstate]
  · intro hcur
    rw [hu]
    unfold GitBranch.handleKey
    rw [hstate]
    simp [h0i, hcur, hstate]
  · intro m2
    simp [GitBranch.update, GitBranch.isKey, GitBranch.updateCore,
      GitBranch.startAsync]

/-- C5 witness: on the example model the select key over `feature/foo`
starts the checkout, and over the current `main` it does nothing. -/
theorem claim_C5_witness :
    GitBranch.update mBrowse (.key "enter") =
      ({ mBrowse with
          deleteStaged := false,
          editing := GitBranch.branchAt mBrowse.branches mBrowse.cursor,
          state := .processing,
          processingMsg := "Switching branch..." },
       [.gitCheckout (GitBranch.branchAt mBrowse.branches mBrowse.cursor).name,
        .spinnerTick, .stopwatchReset, .stopwatchStart]) ∧
    GitBranch.update mTop (.key "enter") = ({ mTop with deleteStaged := false }, []) := by
  refine ⟨(claim_C5_checkout_flow mBrowse (by decide) (by decide) (by decide)).1
      (by decide), ?_⟩
  exact (claim_C5_checkout_flow mTop (by decide) (by decide) (by decide)).2.1
    (by decide)

/-- C6 counterexample: the claim says an empty-after-trim rename
submission leaves the view-state unchanged; in the code, submitting a
whitespace-only name in the Editing state cancels the edit and
transitions back to Browse. -/
theorem claim_C6_counterexample :
    c6EditEmpty.state = .edit ∧ trimStr c6EditEmpty.input.value = "" ∧
    (GitBranch.update c6EditEmpty (.key "enter")).1.state = .browse ∧
    (GitBranch.update c6EditEmpty (.key "enter")).1.state ≠ c6EditEmpty.state := by
  decide

/-- C6 (amended): rename and create submissions evaluate the trimmed
name, and an empty-after-trim name never issues a command; in Creating
the view-state stays unchanged, while in Editing the empty submission
cancels back to Browse (blurring the input).  A non-empty trimmed name
is what the issued command carries. -/
theorem claim_C6_trim_and_reject : ∀ (m : GitBranch.Model), m.errSplash = "" →
    ((m.state = .edit → trimStr m.input.value = "" →
      GitBranch.update m (.key "enter") =
        ({ m with state := .browse, input := m.input.blur }, [])) ∧
     (m.state = .create → trimStr m.input.value = "" →
      GitBranch.update m (.key "enter") = (m, [])) ∧
     (m.state = .edit → trimStr m.input.value ≠ "" →
      trimStr m.input.value ≠ m.editing.name → m.editing.hasRemote = false →
      GitBranch.update m (.key "enter") =
        ({ m with state := .processing, processingMsg := "Renaming branch..." },
         [.gitRenameLocal m.editing.name (trimStr m.input.value),
          .spinnerTick, .stopwatchReset, .stopwatchStart])) ∧
     (m.state = .create → trimStr m.input.value ≠ "" →
      GitBranch.branchExists m (trimStr m.input.value) = false →
      GitBranch.update m (.key "enter") =
        ({ m with state := .processing, processingMsg := "Creating branch..." },
         [.gitCreate (trimStr m.input.value),
          .spinnerTick, .stopwatchReset, .stopwatchStart]))) := by
  intro m hsplash
  have hu := update_key_of_no_splash m hsplash
  refine ⟨?_, ?_, ?_, ?_⟩
  · intro hstate htrim
    rw [hu]
    unfold GitBranch.handleKey
    rw [hstate]
    simp [htrim]
  · intro hstate htrim
    rw [hu]
    unfold GitBranch.handleKey
    rw [hstate]
    simp [htrim]
  · intro hstate htrim hname hremote
    rw [hu]
    unfold GitBranch.handleKey
    rw [hstate]
    simp [htrim, hname, hremote, GitBranch.startAsync, hstate]
  · intro hstate htrim hexists
    rw [hu]
    unfold GitBranch.handleKey
    rw [hstate]
    simp [htrim, hexists, GitBranch.startAsync, hstate]

/-- C6 witness: a whitespace-only create submission stays in Creating
with no command, and a padded rename submission issues the rename with
the trimmed name. -/
theorem claim_C6_witness :
    GitBranch.update c6Create (.key "enter") = (c6Create, []) ∧
    GitBranch.update c6EditRen (.key "enter") =
      ({ c6EditRen with
          state := .processing, processingMsg := "Renaming branch..." },
       [.gitRenameLocal c6EditRen.editing.name (trimStr c6EditRen.input.value),
        .spinnerTick, .stopwatchReset, .stopwatchStart]) := by
  refine ⟨(claim_C6_trim_and_reject c6Create (by decide)).2.1 (by decide)
      (by decide), ?_⟩
  exact (claim_C6_trim_and_reject c6EditRen (by decide)).2.2.1 (by decide)
    (by decide) (by decide) (by decide)

/-- C7: the version comparator compares dot-separated versions
numerically per segment via the 4-digit left padding, so
`IsNewer("2025.1.3", "2025.1.10")` is true even though the plain
byte-wise string comparison would order `"2025.1.10"` below
`"2025.1.3"`; and for a development build (`current = "dev"`), `IsNewer`
is false for every `latest`. -/
theorem claim_C7_version_compare :
    Updater.IsNewer "2025.1.3" "2025.1.10" = true ∧
    (∀ latest, Updater.IsNewer "dev" latest = false) ∧
    charListLt "2025.1.3".data "2025.1.10".data = false :=
  ⟨by decide, fun _ => rfl, by decide⟩

/-- C8 counterexample: the claim says every message other than "navigate
back" is passed through to the wrapped tool unchanged, but a ctrl+c key
message — which is not the back message — is intercepted by the adapter
and turned into quit: the wrapped counting model is not updated, whereas
passing the message through would have advanced it. -/
theorem claim_C8_counterexample :
    Msg.key "ctrl+c" ≠ Msg.back ∧
    Standalone.update countingUpdate ⟨0⟩ (.key "ctrl+c") = (⟨0⟩, [.quit]) ∧
    countingUpdate 0 (.key "ctrl+c") = (1, []) :=
  ⟨by decide, by decide, by decide⟩

/-- C8 (amended): the standalone adapter turns the navigate-back message
into quit, also turns the global interrupt key (ctrl+c) into quit, and
passes every message other than those two through to the wrapped tool's
update unchanged, re-wrapping the replacement state. -/
theorem claim_C8_standalone_adapter :
    ∀ (α : Type) (upd : α → Msg → α × Cmd) (s : Standalone.Model α) (msg : Msg),
    (Standalone.update upd s .back = (s, [.quit])) ∧
    (Standalone.update upd s (.key "ctrl+c") = (s, [.quit])) ∧
    (msg ≠ .back → msg ≠ .key "ctrl+c" →
      Standalone.update upd s msg =
        (⟨(upd s.inner msg).1⟩, (upd s.inner msg).2)) := by
  intro α upd s msg
  refine ⟨by simp [Standalone.update], by simp [Standalone.update], ?_⟩
  intro h1 h2
  cases msg <;> simp_all [Standalone.update]

/-- C8 witness: a tick message — neither back nor ctrl+c — reaches the
wrapped counting model, which advances and is re-wrapped. -/
theorem claim_C8_witness :
    Msg.tick ≠ Msg.back ∧ Msg.tick ≠ Msg.key "ctrl+c" ∧
    Standalone.update countingUpdate ⟨5⟩ Msg.tick = (⟨6⟩, []) := by
  refine ⟨by decide, by decide, ?_⟩
  have h := (claim_C8_standalone_adapter Nat countingUpdate ⟨5⟩ Msg.tick).2.2
    (by decide) (by decide)
  simpa [countingUpdate] using h

/-- C9: a tool-selected message whose id is not in the registry is a
silent no-op for the app shell: `registry.Get` returns nothing, no tool
instance is constructed, the delegated message leaves every screen
unchanged with no command, and the total function cannot crash. -/
theorem claim_C9_unknown_tool_noop :
    ∀ (tools : List Tool) (m : App.Model) (id : String),
    registryGet tools id = none →
    App.update tools m (.toolSelected id) = (m, []) := by
  intro tools m id h
  cases hm : m.current with
  | home hh =>
    simp [App.update, h, screenUpdate, Home.update, hm]
    rw [← hm]
  | gitbranch g =>
    simp [App.update, h, screenUpdate, hm, GitBranch.update, GitBranch.isKey,
      GitBranch.updateCore, GitBranch.spinnerUpdate, GitBranch.stopwatchUpdate]
    rw [← hm]

/-- C9 witness: selecting an unregistered id on a fresh shell leaves the
shell exactly as it was, with no command. -/
theorem claim_C9_witness :
    App.update toolsEx (App.new "dev") (.toolSelected "nonexistent") =
      (App.new "dev", []) :=
  claim_C9_unknown_tool_noop toolsEx (App.new "dev") "nonexistent" (by decide)

/-- C10: the splash interception swallows keyboard messages only: every
non-keyboard message runs the very same message switch (`updateCore`)
that runs when no splash is shown — which is also exactly what runs for
any message when the splash is empty — so a late async
`branchesLoadedMsg` still replaces the branch list and re-enters Browse
while the splash text remains displayed. -/
theorem claim_C10_nonkey_bypasses_splash :
    (∀ (m : GitBranch.Model) (msg : Msg), GitBranch.isKey msg = false →
      GitBranch.update m msg = GitBranch.updateCore m msg) ∧
    (∀ (m : GitBranch.Model) (msg : Msg), m.errSplash = "" →
      GitBranch.update m msg = GitBranch.updateCore m msg) ∧
    (∀ (m : GitBranch.Model) (bs : List Branch), m.errSplash ≠ "" →
      (GitBranch.update m (.branchesLoaded bs none)).1.branches = bs ∧
      (GitBranch.update m (.branchesLoaded bs none)).1.state = .browse ∧
      (GitBranch.update m (.branchesLoaded bs none)).1.errSplash = m.errSplash) := by
  refine ⟨?_, ?_, ?_⟩
  · intro m msg h
    simp [GitBranch.update, h]
  · intro m msg h
    simp [GitBranch.update, h]
  · intro m bs h
    simp only [GitBranch.update, GitBranch.isKey]
    simp only [Bool.false_eq_true, and_false, if_false]
    simp [GitBranch.updateCore]
    split <;> simp

/-- C10 witness: on a splash-showing model, a branch-list result is
handled by the ordinary switch, swaps in the new list and re-enters
Browse while the splash text stays. -/
theorem claim_C10_witness :
    GitBranch.update mSplash (.branchesLoaded [bLocal] none) =
      GitBranch.updateCore mSplash (.branchesLoaded [bLocal] none) ∧
    (GitBranch.update mSplash (.branchesLoaded [bLocal] none)).1.branches =
      [bLocal] ∧
    (GitBranch.update mSplash (.branchesLoaded [bLocal] none)).1.state =
      .browse ∧
    (GitBranch.update mSplash (.branchesLoaded [bLocal] none)).1.errSplash =
      mSplash.errSplash := by
  refine ⟨claim_C10_nonkey_bypasses_splash.1 mSplash
      (.branchesLoaded [bLocal] none) (by decide), ?_, ?_, ?_⟩
  · exact (claim_C10_nonkey_bypasses_splash.2.2 mSplash [bLocal] (by decide)).1
  · exact (claim_C10_nonkey_bypasses_splash.2.2 mSplash [bLocal] (by decide)).2.1
  · exact (claim_C10_nonkey_bypasses_splash.2.2 mSplash [bLocal] (by decide)).2.2

end Rig
